import Mathlib

/-!
# quirc MicroPython binding (`quirc_bindings.c`)

A shallow embedding of the two entry points of the binding, `mod_quirc_init`
and `mod_quirc_scan`, over an abstract QR engine.

* The engine (`quirc_init`, `quirc_begin`, `quirc_end`, `quirc_count`,
  `quirc_extract`, `quirc_decode`, the macro `QUIRC_VARS_NUMOF` and the struct
  types) is what `lib/quirc_internal.h` declares; the binding only calls it.
  It is taken as a parameter: the structure `Engine`.  Every theorem that
  quantifies over `E : Engine` holds for whatever engine is linked in.
* The file-level statics `_flood_fill_vars`, `_quirc`, `_code`, `_data`,
  `_framebuffer` are the record `Statics`.
* Every call into the engine is logged, with its arguments, in a call log
  carried next to the statics (`Machine.calls`).  The log is ghost state: no
  definition reads it.
* A MicroPython exception (`mp_raise_msg`, `mp_raise_msg_varg`, which do not
  return) is the `Except.error` case of the result.
* `mp_obj_get_int` yields an `mp_int_t`, a signed machine word of `w` bits;
  the assignment to `mp_uint_t` reinterprets it modulo `2 ^ w`.
-/

namespace Quirc

/-! ## Compile-time configuration -/

/-- The default of `CONFIG_QUIRC_QR_MAX_HOR_RES` (line 17). -/
def CONFIG_QUIRC_QR_MAX_HOR_RES : Nat := 128

/-- The default of `CONFIG_QUIRC_QR_MAX_VER_RES` (line 21). -/
def CONFIG_QUIRC_QR_MAX_VER_RES : Nat := 128

/-! ## MicroPython values -/

/-- The objects the two functions return: `mp_const_none`, or a `str` object
holding a byte sequence. -/
inductive MpObj where
  | none
  | str (bytes : List Nat)
  deriving DecidableEq, Repr

/-- The exceptions the binding raises.  `ValueError` carries the format string
and the variadic arguments of `mp_raise_msg_varg`; `RuntimeError` the message of
`mp_raise_msg`. -/
inductive MpExc where
  | ValueError (fmt : String) (args : List Nat)
  | RuntimeError (msg : String)
  deriving DecidableEq, Repr

/-- Range of `mp_int_t`, the signed `w`-bit word `mp_obj_get_int` returns. -/
def isMpInt (w : Nat) (x : Int) : Prop :=
  -((2 : Int) ^ (w - 1)) ≤ x ∧ x < (2 : Int) ^ (w - 1)

instance (w : Nat) (x : Int) : Decidable (isMpInt w x) := by
  unfold isMpInt
  exact inferInstance

/-- The conversion `mp_int_t → mp_uint_t` of lines 56-57: the value modulo
`2 ^ w`. -/
def mp_uint_t_of (w : Nat) (x : Int) : Nat :=
  (x % (2 : Int) ^ w).toNat

/-! ## The engine interface and the call log -/

/-- The pointers the binding hands to the engine. -/
inductive Ptr where
  | NULL
  | _flood_fill_vars
  | _quirc
  | _code
  | _data
  | _framebuffer
  deriving DecidableEq, Repr

/-- One call into the engine, with the arguments the binding passes. -/
inductive Call where
  | quirc_init (q : Ptr) (image_width image_height : Nat) (image vars : Ptr) (num_vars : Nat)
  | quirc_begin (q w h : Ptr)
  | quirc_end (q : Ptr)
  | quirc_count (q : Ptr)
  | quirc_extract (q : Ptr) (index : Int) (code : Ptr)
  | quirc_decode (code data : Ptr)
  deriving DecidableEq, Repr

/-- The QR engine declared by `lib/quirc_internal.h`, as a parameter.  A function
that receives a pointer receives the pointed-to value and returns its new
contents; the decoder context `struct quirc` keeps the pointers to the frame
buffer and to the flood-fill workspace it was initialised with, so `quirc_init`,
`quirc_begin` and `quirc_end` see and may rewrite all three.  `quirc_count` and
`quirc_extract` are taken to read the context and `quirc_decode` to read the
code (pointers to constants in the quirc interface); `quirc_extract` fills
`_code` and `quirc_decode` fills `_data`, each possibly depending on what was
there.  `payload` is the byte array `quirc_data.payload`, `payload_len` the field
of that name (a byte count), and the error code of `quirc_decode` is `0` for
`QUIRC_SUCCESS`. -/
structure Engine where
  quirc : Type
  quirc_code : Type
  quirc_data : Type
  quirc_flood_fill_vars : Type
  QUIRC_VARS_NUMOF : Nat → Nat
  quirc_init : quirc → Nat → Nat → List Nat → quirc_flood_fill_vars → Nat →
    Int × quirc × List Nat × quirc_flood_fill_vars
  quirc_begin : quirc → List Nat → quirc_flood_fill_vars →
    quirc × List Nat × quirc_flood_fill_vars
  quirc_end : quirc → List Nat → quirc_flood_fill_vars →
    quirc × List Nat × quirc_flood_fill_vars
  quirc_count : quirc → Int
  quirc_extract : quirc → List Nat → quirc_flood_fill_vars → Int → quirc_code → quirc_code
  quirc_decode : quirc_code → quirc_data → Nat × quirc_data
  payload : quirc_data → List Nat
  payload_len : quirc_data → Nat

/-- The macro `CONFIG_QUIRC_FLOOD_FILL_VARS` (line 24):
`QUIRC_VARS_NUMOF(CONFIG_QUIRC_QR_MAX_VER_RES)`. -/
def CONFIG_QUIRC_FLOOD_FILL_VARS (E : Engine) : Nat :=
  E.QUIRC_VARS_NUMOF CONFIG_QUIRC_QR_MAX_VER_RES

/-- The static objects of lines 45-49.  `_flood_fill_vars` is the whole array of
`CONFIG_QUIRC_FLOOD_FILL_VARS` elements, `_framebuffer` the byte array. -/
structure Statics (E : Engine) where
  _flood_fill_vars : E.quirc_flood_fill_vars
  _quirc : E.quirc
  _code : E.quirc_code
  _data : E.quirc_data
  _framebuffer : List Nat

/-- The statics together with the log of the engine calls made so far. -/
structure Machine (E : Engine) where
  mem : Statics E
  calls : List Call

/-! ## The engine calls as the binding makes them -/

/-- Line 64: `quirc_init(&_quirc, hor_res, ver_res, _framebuffer,
_flood_fill_vars, CONFIG_QUIRC_FLOOD_FILL_VARS)`. -/
def call_quirc_init (E : Engine) (m : Machine E) (hor_res ver_res : Nat) : Int × Machine E :=
  let r := E.quirc_init m.mem._quirc hor_res ver_res m.mem._framebuffer
    m.mem._flood_fill_vars (CONFIG_QUIRC_FLOOD_FILL_VARS E)
  (r.1,
   { mem := { m.mem with _quirc := r.2.1, _framebuffer := r.2.2.1, _flood_fill_vars := r.2.2.2 },
     calls := m.calls ++ [Call.quirc_init Ptr._quirc hor_res ver_res Ptr._framebuffer
       Ptr._flood_fill_vars (CONFIG_QUIRC_FLOOD_FILL_VARS E)] })

/-- Line 81: `quirc_begin(&_quirc, NULL, NULL)`. -/
def call_quirc_begin (E : Engine) (m : Machine E) : Machine E :=
  let r := E.quirc_begin m.mem._quirc m.mem._framebuffer m.mem._flood_fill_vars
  { mem := { m.mem with _quirc := r.1, _framebuffer := r.2.1, _flood_fill_vars := r.2.2 },
    calls := m.calls ++ [Call.quirc_begin Ptr._quirc Ptr.NULL Ptr.NULL] }

/-- Line 83: `quirc_end(&_quirc)`. -/
def call_quirc_end (E : Engine) (m : Machine E) : Machine E :=
  let r := E.quirc_end m.mem._quirc m.mem._framebuffer m.mem._flood_fill_vars
  { mem := { m.mem with _quirc := r.1, _framebuffer := r.2.1, _flood_fill_vars := r.2.2 },
    calls := m.calls ++ [Call.quirc_end Ptr._quirc] }

/-- Line 86: `quirc_count(&_quirc)`. -/
def call_quirc_count (E : Engine) (m : Machine E) : Int × Machine E :=
  (E.quirc_count m.mem._quirc,
   { m with calls := m.calls ++ [Call.quirc_count Ptr._quirc] })

/-- Line 94: `quirc_extract(&_quirc, 0, &_code)`. -/
def call_quirc_extract (E : Engine) (m : Machine E) (index : Int) : Machine E :=
  { mem := { m.mem with
      _code := E.quirc_extract m.mem._quirc m.mem._framebuffer m.mem._flood_fill_vars
        index m.mem._code },
    calls := m.calls ++ [Call.quirc_extract Ptr._quirc index Ptr._code] }

/-- Line 98: `quirc_decode(&_code, &_data)`. -/
def call_quirc_decode (E : Engine) (m : Machine E) : Nat × Machine E :=
  let r := E.quirc_decode m.mem._code m.mem._data
  (r.1,
   { mem := { m.mem with _data := r.2 },
     calls := m.calls ++ [Call.quirc_decode Ptr._code Ptr._data] })

/-! ## The two entry points -/

/-- The function `mod_quirc_init` (lines 55-70).  `hor_res_obj` and
`ver_res_obj` are the `mp_int_t` values `mp_obj_get_int` returns for the two
arguments. -/
def mod_quirc_init (w : Nat) (E : Engine) (m : Machine E) (hor_res_obj ver_res_obj : Int) :
    Except MpExc MpObj × Machine E :=
  let hor_res := mp_uint_t_of w hor_res_obj
  let ver_res := mp_uint_t_of w ver_res_obj
  if hor_res > CONFIG_QUIRC_QR_MAX_HOR_RES ∨ ver_res > CONFIG_QUIRC_QR_MAX_VER_RES then
    (Except.error (MpExc.ValueError "Maximum resolution for the QR scanner is %ux%u"
        [CONFIG_QUIRC_QR_MAX_HOR_RES, CONFIG_QUIRC_QR_MAX_VER_RES]), m)
  else
    let r := call_quirc_init E m hor_res ver_res
    if r.1 < 0 then
      (Except.error (MpExc.RuntimeError "Invalid buffer size for this decoder"), r.2)
    else
      (Except.ok MpObj.none, r.2)

/-- The function `mod_quirc_scan` (lines 79-111).  The `vstr` is filled by
`vstr_add_strn` with `payload_len` bytes read from the start of `payload`, and
`mp_obj_new_str_from_vstr` makes the `str` object of exactly those bytes; the
heap allocation of the `vstr` is taken to succeed.  The `DEBUG` lines expand to
nothing (`CONFIG_QR_DEBUG` is `0`). -/
def mod_quirc_scan (E : Engine) (m : Machine E) : Except MpExc MpObj × Machine E :=
  let m1 := call_quirc_begin E m
  let m2 := call_quirc_end E m1
  let c := call_quirc_count E m2
  let num_codes := c.1
  if num_codes = 0 then
    (Except.ok MpObj.none, c.2)
  else
    let m4 := call_quirc_extract E c.2 0
    let d := call_quirc_decode E m4
    let err := d.1
    if err ≠ 0 then
      (Except.ok MpObj.none, d.2)
    else
      (Except.ok (MpObj.str ((E.payload d.2.mem._data).take (E.payload_len d.2.mem._data))), d.2)

/-- What the caller does between scans: the frame buffer is exposed as the
`bytearray` `quirc_framebuffer_obj` (lines 114-120) and filled from outside. -/
def fill_framebuffer (E : Engine) (m : Machine E) (pixels : List Nat) : Machine E :=
  { m with mem := { m.mem with _framebuffer := pixels } }

/-! ## Values the scan computes on its way -/

/-- The value of `num_codes` (line 86): what `quirc_count` returns after
`quirc_begin` and `quirc_end` have run. -/
def scan_num_codes (E : Engine) (m : Machine E) : Int :=
  (call_quirc_count E (call_quirc_end E (call_quirc_begin E m))).1

/-- The machine right after line 94, had the scan got that far: `_code` holds
the candidate of index `0`. -/
def scan_extracted (E : Engine) (m : Machine E) : Machine E :=
  call_quirc_extract E (call_quirc_count E (call_quirc_end E (call_quirc_begin E m))).2 0

/-- The value of `err` and the machine right after line 98, had the scan got
that far. -/
def scan_decoded (E : Engine) (m : Machine E) : Nat × Machine E :=
  call_quirc_decode E (scan_extracted E m)

/-! ## A small concrete engine

It is used where a statement needs a concrete engine.  Its context records the
configured size and the candidates of the last pass; a pass reads the frame
buffer as candidates separated by the byte `255`; a candidate that starts with
the byte `0` does not decode. -/

/-- The runs of a frame buffer between bytes `255`, empty runs included (the
engine drops those). -/
def toyCandidates : List Nat → List (List Nat)
  | [] => []
  | 255 :: rest => [] :: toyCandidates rest
  | b :: rest =>
    match toyCandidates rest with
    | [] => [[b]]
    | c :: cs => (b :: c) :: cs

/-- The concrete engine.  `quirc_init` refuses an empty image and a workspace
smaller than `QUIRC_VARS_NUMOF(image_height)`; `quirc_decode` writes the bytes
of the candidate followed by a terminating `0` into `payload`. -/
def toyEngine : Engine where
  quirc := Nat × Nat × List (List Nat)
  quirc_code := List Nat
  quirc_data := List Nat × Nat
  quirc_flood_fill_vars := List Nat
  QUIRC_VARS_NUMOF := fun h => h * 2 / 3
  quirc_init := fun _ wd ht image vars num_vars =>
    if wd = 0 ∨ ht = 0 ∨ num_vars < ht * 2 / 3 then (-1, (0, 0, []), image, vars)
    else (0, (wd, ht, []), image, vars)
  quirc_begin := fun q image vars => ((q.1, q.2.1, []), image, vars)
  quirc_end := fun q image vars =>
    ((q.1, q.2.1, (toyCandidates image).filter (fun c => !c.isEmpty)), image, vars)
  quirc_count := fun q => (q.2.2.length : Int)
  quirc_extract := fun q _ _ index code => q.2.2.getD index.toNat code
  quirc_decode := fun code data =>
    if code.head? = some 0 then (1, data) else (0, (code ++ [0], code.length))
  payload := fun d => d.1
  payload_len := fun d => d.2

/-- A machine of the concrete engine before any call, with the given frame
buffer contents. -/
def toyMachine (pixels : List Nat) : Machine toyEngine :=
  { mem := { _flood_fill_vars := [], _quirc := (0, 0, []), _code := [], _data := ([], 0),
             _framebuffer := pixels },
    calls := [] }

/-- Modelled from the spec: the body of the engine's `quirc_init`, which the
sources do not contain.  The spec says of configuration that it "overwrites any
prior configuration (idempotent re-init allowed)" and that re-init "simply
reconfigures dimensions against the same static buffers": what `quirc_init`
returns and the context it leaves do not depend on the previous contents of the
context, and the frame buffer and the workspace are left as they were. -/
def InitOverwrites (E : Engine) : Prop :=
  ∀ (q q2 : E.quirc) (wd ht : Nat) (image : List Nat) (vars : E.quirc_flood_fill_vars)
    (n : Nat),
    E.quirc_init q wd ht image vars n = E.quirc_init q2 wd ht image vars n ∧
    (E.quirc_init q wd ht image vars n).2.2 = (image, vars)

/-! ## The word conversion -/

/-- A non-negative `mp_int_t` keeps its value as an `mp_uint_t`. -/
theorem mp_uint_t_of_nonneg (w : Nat) (x : Int) (h0 : 0 ≤ x) (hx : isMpInt w x) :
    mp_uint_t_of w x = x.toNat := by
  unfold mp_uint_t_of
  have hpow : (2 : Int) ^ (w - 1) ≤ (2 : Int) ^ w :=
    pow_le_pow_right₀ (by norm_num) (Nat.sub_le w 1)
  rw [Int.emod_eq_of_lt h0 (lt_of_lt_of_le hx.2 hpow)]

/-- A negative `mp_int_t` of at least nine bits becomes an `mp_uint_t` above
`128`. -/
theorem mp_uint_t_of_neg (w : Nat) (x : Int) (hw : 9 ≤ w) (hneg : x < 0) (hx : isMpInt w x) :
    128 < mp_uint_t_of w x := by
  unfold mp_uint_t_of
  obtain ⟨k, rfl⟩ : ∃ k, w = k + 1 := ⟨w - 1, by omega⟩
  have hlo := hx.1
  simp only [Nat.add_sub_cancel] at hlo
  have hk : (2 : Int) ^ 8 ≤ (2 : Int) ^ k := pow_le_pow_right₀ (by norm_num) (by omega)
  have hpos : (0 : Int) < (2 : Int) ^ (k + 1) := by positivity
  have hsucc : (2 : Int) ^ (k + 1) = 2 * (2 : Int) ^ k := by ring
  have hmod : x % (2 : Int) ^ (k + 1) = x + (2 : Int) ^ (k + 1) := by
    rw [← Int.add_emod_self]
    exact Int.emod_eq_of_lt (by omega) (by omega)
  rw [hmod]
  have h8 : (2 : Int) ^ 8 = 256 := by norm_num
  omega

/-- The bounds test of line 59 on in-range arguments: it passes exactly for
`0 ≤ hor_res ≤ 128` and `0 ≤ ver_res ≤ 128`. -/
theorem bounds_test_iff (w : Nat) (hor_res ver_res : Int) (hw : 9 ≤ w)
    (hh : isMpInt w hor_res) (hv : isMpInt w ver_res) :
    ¬ (mp_uint_t_of w hor_res > CONFIG_QUIRC_QR_MAX_HOR_RES ∨
        mp_uint_t_of w ver_res > CONFIG_QUIRC_QR_MAX_VER_RES) ↔
      (0 ≤ hor_res ∧ hor_res ≤ 128 ∧ 0 ≤ ver_res ∧ ver_res ≤ 128) := by
  unfold CONFIG_QUIRC_QR_MAX_HOR_RES CONFIG_QUIRC_QR_MAX_VER_RES
  constructor
  · intro hn
    have h1 : 0 ≤ hor_res := by
      by_contra hc
      exact hn (Or.inl (mp_uint_t_of_neg w hor_res hw (by omega) hh))
    have h2 : 0 ≤ ver_res := by
      by_contra hc
      exact hn (Or.inr (mp_uint_t_of_neg w ver_res hw (by omega) hv))
    rw [mp_uint_t_of_nonneg w hor_res h1 hh, mp_uint_t_of_nonneg w ver_res h2 hv] at hn
    omega
  · rintro ⟨h1, h2, h3, h4⟩
    rw [mp_uint_t_of_nonneg w hor_res h1 hh, mp_uint_t_of_nonneg w ver_res h3 hv]
    omega

/-- The shape of `mod_quirc_init` when the bounds test fires. -/
theorem mod_quirc_init_of_test (w : Nat) (E : Engine) (m : Machine E) (hor_res ver_res : Int)
    (ht : mp_uint_t_of w hor_res > CONFIG_QUIRC_QR_MAX_HOR_RES ∨
      mp_uint_t_of w ver_res > CONFIG_QUIRC_QR_MAX_VER_RES) :
    mod_quirc_init w E m hor_res ver_res =
      (Except.error (MpExc.ValueError "Maximum resolution for the QR scanner is %ux%u"
        [CONFIG_QUIRC_QR_MAX_HOR_RES, CONFIG_QUIRC_QR_MAX_VER_RES]), m) := by
  unfold mod_quirc_init
  simp only [if_pos ht]

/-- The shape of `mod_quirc_init` when the bounds test passes. -/
theorem mod_quirc_init_of_not_test (w : Nat) (E : Engine) (m : Machine E)
    (hor_res ver_res : Int)
    (ht : ¬ (mp_uint_t_of w hor_res > CONFIG_QUIRC_QR_MAX_HOR_RES ∨
      mp_uint_t_of w ver_res > CONFIG_QUIRC_QR_MAX_VER_RES)) :
    mod_quirc_init w E m hor_res ver_res =
      if (call_quirc_init E m (mp_uint_t_of w hor_res) (mp_uint_t_of w ver_res)).1 < 0 then
        (Except.error (MpExc.RuntimeError "Invalid buffer size for this decoder"),
          (call_quirc_init E m (mp_uint_t_of w hor_res) (mp_uint_t_of w ver_res)).2)
      else
        (Except.ok MpObj.none,
          (call_quirc_init E m (mp_uint_t_of w hor_res) (mp_uint_t_of w ver_res)).2) := by
  unfold mod_quirc_init
  simp only [if_neg ht]

/-! ## `init`: the bounds and the engine's verdict -/

/-- C1: for every pair of arguments with `hor_res > 128` or `ver_res > 128` and
every prior state, `init` raises the `ValueError` that reports the maxima and
hands back the machine it was given: the statics are what they were and no
engine call has been added to the log, so `quirc_init` was not invoked. -/
theorem init_out_of_bounds (w : Nat) (E : Engine) (m : Machine E) (hor_res ver_res : Int)
    (hh : isMpInt w hor_res) (hv : isMpInt w ver_res)
    (hoob : hor_res > (CONFIG_QUIRC_QR_MAX_HOR_RES : Int) ∨
      ver_res > (CONFIG_QUIRC_QR_MAX_VER_RES : Int)) :
    mod_quirc_init w E m hor_res ver_res =
      (Except.error (MpExc.ValueError "Maximum resolution for the QR scanner is %ux%u"
        [128, 128]), m) := by
  apply mod_quirc_init_of_test
  unfold CONFIG_QUIRC_QR_MAX_HOR_RES CONFIG_QUIRC_QR_MAX_VER_RES at *
  rcases hoob with h | h
  · left
    rw [mp_uint_t_of_nonneg w hor_res (by omega) hh]
    omega
  · right
    rw [mp_uint_t_of_nonneg w ver_res (by omega) hv]
    omega

/-- Witness of C1 on a 32-bit word: `init(200, 5)` on a machine that already
holds a configuration and a call log. -/
theorem init_out_of_bounds_witness :
    isMpInt 32 200 ∧ isMpInt 32 5 ∧
    mod_quirc_init 32 toyEngine (mod_quirc_init 32 toyEngine (toyMachine [7]) 64 48).2 200 5 =
      (Except.error (MpExc.ValueError "Maximum resolution for the QR scanner is %ux%u"
        [128, 128]), (mod_quirc_init 32 toyEngine (toyMachine [7]) 64 48).2) :=
  ⟨by decide, by decide,
    init_out_of_bounds 32 toyEngine (mod_quirc_init 32 toyEngine (toyMachine [7]) 64 48).2 200 5
      (by decide) (by decide) (Or.inl (by decide))⟩

/-- C3: when the bounds test passes, `init` raises `RuntimeError` if and only if
`quirc_init`, called on `&_quirc` with `hor_res`, `ver_res`, the static frame
buffer, the static workspace and `CONFIG_QUIRC_FLOOD_FILL_VARS`, returns a
negative value, and returns `None` when it returns a non-negative one; that call
is the one engine call made.  When the bounds test fails the exception is the
`ValueError`, so `RuntimeError` is never raised for out-of-bounds arguments. -/
theorem init_runtime_error_iff (w : Nat) (E : Engine) (m : Machine E) (hor_res ver_res : Int) :
    (mp_uint_t_of w hor_res ≤ CONFIG_QUIRC_QR_MAX_HOR_RES ∧
      mp_uint_t_of w ver_res ≤ CONFIG_QUIRC_QR_MAX_VER_RES →
      ((mod_quirc_init w E m hor_res ver_res).1 =
          Except.error (MpExc.RuntimeError "Invalid buffer size for this decoder") ↔
        (E.quirc_init m.mem._quirc (mp_uint_t_of w hor_res) (mp_uint_t_of w ver_res)
          m.mem._framebuffer m.mem._flood_fill_vars (CONFIG_QUIRC_FLOOD_FILL_VARS E)).1 < 0) ∧
      (0 ≤ (E.quirc_init m.mem._quirc (mp_uint_t_of w hor_res) (mp_uint_t_of w ver_res)
          m.mem._framebuffer m.mem._flood_fill_vars (CONFIG_QUIRC_FLOOD_FILL_VARS E)).1 →
        (mod_quirc_init w E m hor_res ver_res).1 = Except.ok MpObj.none) ∧
      (mod_quirc_init w E m hor_res ver_res).2.calls =
        m.calls ++ [Call.quirc_init Ptr._quirc (mp_uint_t_of w hor_res) (mp_uint_t_of w ver_res)
          Ptr._framebuffer Ptr._flood_fill_vars (CONFIG_QUIRC_FLOOD_FILL_VARS E)]) ∧
    (¬ (mp_uint_t_of w hor_res ≤ CONFIG_QUIRC_QR_MAX_HOR_RES ∧
      mp_uint_t_of w ver_res ≤ CONFIG_QUIRC_QR_MAX_VER_RES) →
      (mod_quirc_init w E m hor_res ver_res).1 =
          Except.error (MpExc.ValueError "Maximum resolution for the QR scanner is %ux%u"
            [128, 128]) ∧
      ∀ msg, (mod_quirc_init w E m hor_res ver_res).1 ≠ Except.error (MpExc.RuntimeError msg)) := by
  constructor
  · intro hin
    have ht : ¬ (mp_uint_t_of w hor_res > CONFIG_QUIRC_QR_MAX_HOR_RES ∨
        mp_uint_t_of w ver_res > CONFIG_QUIRC_QR_MAX_VER_RES) := by omega
    rw [mod_quirc_init_of_not_test w E m hor_res ver_res ht]
    unfold call_quirc_init
    refine ⟨?_, ?_, ?_⟩
    · constructor
      · intro h
        by_contra hc
        simp only [if_neg hc] at h
        exact absurd h (by simp)
      · intro h
        simp only [if_pos h]
    · intro h
      simp only [if_neg (not_lt.mpr h)]
    · split <;> rfl
  · intro hout
    have ht : mp_uint_t_of w hor_res > CONFIG_QUIRC_QR_MAX_HOR_RES ∨
        mp_uint_t_of w ver_res > CONFIG_QUIRC_QR_MAX_VER_RES := by omega
    rw [mod_quirc_init_of_test w E m hor_res ver_res ht]
    refine ⟨rfl, ?_⟩
    intro msg
    simp

/-- Witness of C3 on a 32-bit word with the concrete engine: `init(64, 0)` passes
the bounds test, the engine refuses the empty image, and `RuntimeError` is
raised. -/
theorem init_runtime_error_iff_witness :
    (mp_uint_t_of 32 64 ≤ CONFIG_QUIRC_QR_MAX_HOR_RES ∧
      mp_uint_t_of 32 0 ≤ CONFIG_QUIRC_QR_MAX_VER_RES) ∧
    (toyEngine.quirc_init (toyMachine []).mem._quirc (mp_uint_t_of 32 64) (mp_uint_t_of 32 0)
      (toyMachine []).mem._framebuffer (toyMachine []).mem._flood_fill_vars
      (CONFIG_QUIRC_FLOOD_FILL_VARS toyEngine)).1 < 0 ∧
    (mod_quirc_init 32 toyEngine (toyMachine []) 64 0).1 =
      Except.error (MpExc.RuntimeError "Invalid buffer size for this decoder") :=
  ⟨by decide, by decide,
    ((init_runtime_error_iff 32 toyEngine (toyMachine []) 64 0).1 (by decide)).1.2 (by decide)⟩

/-! ## `scan`: outcome and engine calls -/

/-- The three paths of `mod_quirc_scan`, in terms of the values it computes. -/
theorem mod_quirc_scan_eq (E : Engine) (m : Machine E) :
    mod_quirc_scan E m =
      if scan_num_codes E m = 0 then
        (Except.ok MpObj.none, (call_quirc_count E (call_quirc_end E (call_quirc_begin E m))).2)
      else if (scan_decoded E m).1 ≠ 0 then
        (Except.ok MpObj.none, (scan_decoded E m).2)
      else
        (Except.ok (MpObj.str ((E.payload (scan_decoded E m).2.mem._data).take
          (E.payload_len (scan_decoded E m).2.mem._data))), (scan_decoded E m).2) := rfl

/-- The log after `quirc_count`: `begin`, `end`, `count` were added. -/
theorem calls_after_count (E : Engine) (m : Machine E) :
    (call_quirc_count E (call_quirc_end E (call_quirc_begin E m))).2.calls =
      m.calls ++ [Call.quirc_begin Ptr._quirc Ptr.NULL Ptr.NULL, Call.quirc_end Ptr._quirc,
        Call.quirc_count Ptr._quirc] := by
  simp [call_quirc_count, call_quirc_end, call_quirc_begin]

/-- The log after `quirc_decode`: `extract` of index `0` and `decode` follow the
first three calls. -/
theorem calls_after_decode (E : Engine) (m : Machine E) :
    (scan_decoded E m).2.calls =
      m.calls ++ [Call.quirc_begin Ptr._quirc Ptr.NULL Ptr.NULL, Call.quirc_end Ptr._quirc,
        Call.quirc_count Ptr._quirc, Call.quirc_extract Ptr._quirc 0 Ptr._code,
        Call.quirc_decode Ptr._code Ptr._data] := by
  simp [scan_decoded, scan_extracted, call_quirc_decode, call_quirc_extract, call_quirc_count,
    call_quirc_end, call_quirc_begin]

/-- C4: `scan` returns `None` if and only if `quirc_count` returned `0` or
`quirc_decode` of the extracted candidate returned a non-zero error; in every
other case it returns a `str` object; and when the count is `0` the calls it
made are `begin`, `end`, `count` and nothing else, so neither `quirc_extract`
nor `quirc_decode` was invoked. -/
theorem scan_none_iff (E : Engine) (m : Machine E) :
    ((mod_quirc_scan E m).1 = Except.ok MpObj.none ↔
      (scan_num_codes E m = 0 ∨ (scan_decoded E m).1 ≠ 0)) ∧
    (¬ (scan_num_codes E m = 0 ∨ (scan_decoded E m).1 ≠ 0) →
      (mod_quirc_scan E m).1 =
        Except.ok (MpObj.str ((E.payload (scan_decoded E m).2.mem._data).take
          (E.payload_len (scan_decoded E m).2.mem._data)))) ∧
    (scan_num_codes E m = 0 →
      (mod_quirc_scan E m).2.calls =
        m.calls ++ [Call.quirc_begin Ptr._quirc Ptr.NULL Ptr.NULL, Call.quirc_end Ptr._quirc,
          Call.quirc_count Ptr._quirc]) := by
  rw [mod_quirc_scan_eq]
  refine ⟨?_, ?_, ?_⟩
  · by_cases hc : scan_num_codes E m = 0
    · simp [hc]
    · by_cases he : (scan_decoded E m).1 = 0
      · simp [hc, he]
      · simp [hc, he]
  · intro h
    push_neg at h
    simp [h.1, h.2]
  · intro hc
    simp only [if_pos hc]
    exact calls_after_count E m

/-- Witness of C4 with the concrete engine: on an empty frame buffer the count
is `0`, the result is `None`, and only `begin`, `end`, `count` were called. -/
theorem scan_none_iff_witness :
    scan_num_codes toyEngine (toyMachine []) = 0 ∧
    (mod_quirc_scan toyEngine (toyMachine [])).1 = Except.ok MpObj.none ∧
    (mod_quirc_scan toyEngine (toyMachine [])).2.calls =
      (toyMachine []).calls ++ [Call.quirc_begin Ptr._quirc Ptr.NULL Ptr.NULL,
        Call.quirc_end Ptr._quirc, Call.quirc_count Ptr._quirc] :=
  ⟨rfl, (scan_none_iff toyEngine (toyMachine [])).1.2 (Or.inl rfl),
    (scan_none_iff toyEngine (toyMachine [])).2.2 rfl⟩

/-- C5: when `quirc_count` returned a non-zero count and `quirc_decode` returned
`0`, leaving the byte array `p = payload` and `n = payload_len` (with `n` within
the array), `scan` returns the `str` of the first `n` bytes of `p`: its length
is `n`, its byte at every index below `n` is the byte of `p` there whatever its
value, and any array that agrees with `p` below `n` gives the same string. -/
theorem scan_payload_exact (E : Engine) (m : Machine E)
    (hc : scan_num_codes E m ≠ 0) (he : (scan_decoded E m).1 = 0)
    (hlen : E.payload_len (scan_decoded E m).2.mem._data ≤
      (E.payload (scan_decoded E m).2.mem._data).length) :
    (mod_quirc_scan E m).1 =
      Except.ok (MpObj.str ((E.payload (scan_decoded E m).2.mem._data).take
        (E.payload_len (scan_decoded E m).2.mem._data))) ∧
    ((E.payload (scan_decoded E m).2.mem._data).take
      (E.payload_len (scan_decoded E m).2.mem._data)).length =
        E.payload_len (scan_decoded E m).2.mem._data ∧
    (∀ i, i < E.payload_len (scan_decoded E m).2.mem._data →
      ((E.payload (scan_decoded E m).2.mem._data).take
        (E.payload_len (scan_decoded E m).2.mem._data))[i]? =
          (E.payload (scan_decoded E m).2.mem._data)[i]?) ∧
    (∀ q : List Nat,
      (∀ i, i < E.payload_len (scan_decoded E m).2.mem._data →
        q[i]? = (E.payload (scan_decoded E m).2.mem._data)[i]?) →
      q.take (E.payload_len (scan_decoded E m).2.mem._data) =
        (E.payload (scan_decoded E m).2.mem._data).take
          (E.payload_len (scan_decoded E m).2.mem._data)) := by
  refine ⟨?_, ?_, ?_, ?_⟩
  · rw [mod_quirc_scan_eq]
    simp [hc, he]
  · exact List.length_take_of_le hlen
  · intro i hi
    rw [List.getElem?_take, if_pos hi]
  · intro q hq
    apply List.ext_getElem?
    intro i
    by_cases hi : i < E.payload_len (scan_decoded E m).2.mem._data
    · rw [List.getElem?_take, List.getElem?_take, if_pos hi, if_pos hi]
      exact hq i hi
    · rw [List.getElem?_take, List.getElem?_take, if_neg hi, if_neg hi]

/-- Witness of C5 with the concrete engine: the candidate `72 0 76` has a zero
byte inside and the engine leaves a `0` after it in `payload`; the string
returned is the three bytes. -/
theorem scan_payload_exact_witness :
    scan_num_codes toyEngine (toyMachine [72, 0, 76]) ≠ 0 ∧
    (scan_decoded toyEngine (toyMachine [72, 0, 76])).1 = 0 ∧
    toyEngine.payload (scan_decoded toyEngine (toyMachine [72, 0, 76])).2.mem._data =
      [72, 0, 76, 0] ∧
    toyEngine.payload_len (scan_decoded toyEngine (toyMachine [72, 0, 76])).2.mem._data = 3 ∧
    (mod_quirc_scan toyEngine (toyMachine [72, 0, 76])).1 =
      Except.ok (MpObj.str [72, 0, 76]) :=
  ⟨by decide, rfl, rfl, rfl,
    (scan_payload_exact toyEngine (toyMachine [72, 0, 76]) (by decide) rfl (by decide)).1⟩

/-- The decode step reads the extracted candidate and the `_data` static the
scan started with: nothing before it writes `_data`. -/
theorem scan_decoded_eq (E : Engine) (m : Machine E) :
    (scan_decoded E m).1 = (E.quirc_decode (scan_extracted E m).mem._code m.mem._data).1 ∧
    (scan_decoded E m).2.mem._data =
      (E.quirc_decode (scan_extracted E m).mem._code m.mem._data).2 := ⟨rfl, rfl⟩

/-- C6: with a non-zero count, `scan` calls `quirc_extract` once, for index `0`,
and `quirc_decode` once, on the extracted `_code`.  Two machines with non-zero
counts whose candidate of index `0` is the same (and which agree on the `_data`
static handed to the decoder) give the same result, whatever their counts and
their other candidates; and the result is `None` or one string. -/
theorem scan_first_candidate_only (E : Engine) (m1 m2 : Machine E)
    (h1 : scan_num_codes E m1 ≠ 0) (h2 : scan_num_codes E m2 ≠ 0)
    (hcand : (scan_extracted E m1).mem._code = (scan_extracted E m2).mem._code)
    (hdata : m1.mem._data = m2.mem._data) :
    (mod_quirc_scan E m1).1 = (mod_quirc_scan E m2).1 ∧
    (mod_quirc_scan E m1).2.calls =
      m1.calls ++ [Call.quirc_begin Ptr._quirc Ptr.NULL Ptr.NULL, Call.quirc_end Ptr._quirc,
        Call.quirc_count Ptr._quirc, Call.quirc_extract Ptr._quirc 0 Ptr._code,
        Call.quirc_decode Ptr._code Ptr._data] ∧
    (mod_quirc_scan E m2).2.calls =
      m2.calls ++ [Call.quirc_begin Ptr._quirc Ptr.NULL Ptr.NULL, Call.quirc_end Ptr._quirc,
        Call.quirc_count Ptr._quirc, Call.quirc_extract Ptr._quirc 0 Ptr._code,
        Call.quirc_decode Ptr._code Ptr._data] ∧
    ((mod_quirc_scan E m1).1 = Except.ok MpObj.none ∨
      ∃ bytes, (mod_quirc_scan E m1).1 = Except.ok (MpObj.str bytes)) := by
  have e1 := scan_decoded_eq E m1
  have e2 := scan_decoded_eq E m2
  rw [hcand, hdata] at e1
  have herr : (scan_decoded E m1).1 = (scan_decoded E m2).1 := e1.1.trans e2.1.symm
  have hdat : (scan_decoded E m1).2.mem._data = (scan_decoded E m2).2.mem._data :=
    e1.2.trans e2.2.symm
  have c1 := calls_after_decode E m1
  have c2 := calls_after_decode E m2
  rw [mod_quirc_scan_eq E m1, mod_quirc_scan_eq E m2]
  simp only [if_neg h1, if_neg h2]
  by_cases he : (scan_decoded E m2).1 = 0
  · have he1 : (scan_decoded E m1).1 = 0 := herr.trans he
    simp [he, he1, hdat, c1, c2]
  · have he1 : ¬ (scan_decoded E m1).1 = 0 := fun h => he (herr.symm.trans h)
    simp [he, he1, c1, c2]

/-- Witness of C6 with the concrete engine: one frame with the single candidate
`72 69` and one with that candidate followed by a second one; the counts are
`1` and `2`, the candidate of index `0` is the same, and so is the result. -/
theorem scan_first_candidate_only_witness :
    scan_num_codes toyEngine (toyMachine [72, 69]) = 1 ∧
    scan_num_codes toyEngine (toyMachine [72, 69, 255, 1, 2]) = 2 ∧
    (mod_quirc_scan toyEngine (toyMachine [72, 69])).1 =
      (mod_quirc_scan toyEngine (toyMachine [72, 69, 255, 1, 2])).1 ∧
    (mod_quirc_scan toyEngine (toyMachine [72, 69, 255, 1, 2])).1 =
      Except.ok (MpObj.str [72, 69]) :=
  ⟨rfl, rfl,
    (scan_first_candidate_only toyEngine (toyMachine [72, 69]) (toyMachine [72, 69, 255, 1, 2])
      (by decide) (by decide) rfl rfl).1, rfl⟩

/-- C8: the engine calls of one `scan` are `quirc_begin`, `quirc_end`,
`quirc_count`, in that order and once each, when the count is `0`, and those
three followed by one `quirc_extract` of index `0` and then one `quirc_decode`
otherwise.  Nothing precedes `quirc_begin`, and `quirc_decode` comes only after
`quirc_extract`, which comes only after `quirc_count`. -/
theorem scan_call_sequence (E : Engine) (m : Machine E) :
    (mod_quirc_scan E m).2.calls =
      m.calls ++
        (if scan_num_codes E m = 0 then
          [Call.quirc_begin Ptr._quirc Ptr.NULL Ptr.NULL, Call.quirc_end Ptr._quirc,
            Call.quirc_count Ptr._quirc]
        else
          [Call.quirc_begin Ptr._quirc Ptr.NULL Ptr.NULL, Call.quirc_end Ptr._quirc,
            Call.quirc_count Ptr._quirc, Call.quirc_extract Ptr._quirc 0 Ptr._code,
            Call.quirc_decode Ptr._code Ptr._data]) := by
  rw [mod_quirc_scan_eq]
  by_cases hc : scan_num_codes E m = 0
  · simp only [if_pos hc]
    exact calls_after_count E m
  · simp only [if_neg hc]
    by_cases he : (scan_decoded E m).1 = 0
    · simp only [he, ne_eq, not_true_eq_false, if_false]
      exact calls_after_decode E m
    · simp only [ne_eq, he, not_false_eq_true, if_true]
      exact calls_after_decode E m

/-! ## Re-initialisation -/

/-- The concrete engine overwrites its context on `quirc_init`. -/
theorem toyEngine_overwrites : InitOverwrites toyEngine := by
  intro q q2 wd ht image vars n
  refine ⟨rfl, ?_⟩
  simp only [toyEngine]
  split <;> rfl

/-- The result and the statics of a scan do not depend on the call log. -/
theorem mod_quirc_scan_mem (E : Engine) (m1 m2 : Machine E) (h : m1.mem = m2.mem) :
    (mod_quirc_scan E m1).1 = (mod_quirc_scan E m2).1 ∧
    (mod_quirc_scan E m1).2.mem = (mod_quirc_scan E m2).2.mem := by
  obtain ⟨mem1, calls1⟩ := m1
  obtain ⟨mem2, calls2⟩ := m2
  simp only at h
  subst h
  simp only [mod_quirc_scan, call_quirc_decode, call_quirc_extract, call_quirc_count,
    call_quirc_end, call_quirc_begin]
  constructor
  · split
    · rfl
    · split <;> rfl
  · split
    · rfl
    · split <;> rfl

/-- With an engine that overwrites its context, a second `quirc_init` with the
same sizes returns what the first returned and leaves the same statics. -/
theorem call_quirc_init_again (E : Engine) (m : Machine E) (hor_res ver_res : Nat)
    (hE : InitOverwrites E) :
    (call_quirc_init E (call_quirc_init E m hor_res ver_res).2 hor_res ver_res).1 =
      (call_quirc_init E m hor_res ver_res).1 ∧
    (call_quirc_init E (call_quirc_init E m hor_res ver_res).2 hor_res ver_res).2.mem =
      (call_quirc_init E m hor_res ver_res).2.mem := by
  have hbuf := (hE m.mem._quirc m.mem._quirc hor_res ver_res m.mem._framebuffer
    m.mem._flood_fill_vars (CONFIG_QUIRC_FLOOD_FILL_VARS E)).2
  have hb1 : (E.quirc_init m.mem._quirc hor_res ver_res m.mem._framebuffer
      m.mem._flood_fill_vars (CONFIG_QUIRC_FLOOD_FILL_VARS E)).2.2.1 = m.mem._framebuffer :=
    congrArg Prod.fst hbuf
  have hb2 : (E.quirc_init m.mem._quirc hor_res ver_res m.mem._framebuffer
      m.mem._flood_fill_vars (CONFIG_QUIRC_FLOOD_FILL_VARS E)).2.2.2 =
      m.mem._flood_fill_vars := congrArg Prod.snd hbuf
  have hagain := fun q => (hE q m.mem._quirc hor_res ver_res m.mem._framebuffer
    m.mem._flood_fill_vars (CONFIG_QUIRC_FLOOD_FILL_VARS E)).1
  simp only [call_quirc_init, hb1, hb2, hagain]
  exact ⟨trivial, trivial⟩

/-- C7: calling `init` twice in a row with the same arguments gives the same
outcome both times (the same exception, or `None` both times), and the statics
after the second call are the statics after the first; hence, once the frame
buffer is filled with the same pixels, a scan returns the same result and leaves
the same statics after two calls as after one.  The engine's `quirc_init` is
taken to overwrite its context (`InitOverwrites`). -/
theorem init_idempotent (w : Nat) (E : Engine) (m : Machine E) (hor_res ver_res : Int)
    (hE : InitOverwrites E) :
    (mod_quirc_init w E (mod_quirc_init w E m hor_res ver_res).2 hor_res ver_res).1 =
      (mod_quirc_init w E m hor_res ver_res).1 ∧
    (mod_quirc_init w E (mod_quirc_init w E m hor_res ver_res).2 hor_res ver_res).2.mem =
      (mod_quirc_init w E m hor_res ver_res).2.mem ∧
    ∀ pixels,
      (mod_quirc_scan E (fill_framebuffer E
        (mod_quirc_init w E (mod_quirc_init w E m hor_res ver_res).2 hor_res ver_res).2
          pixels)).1 =
        (mod_quirc_scan E (fill_framebuffer E (mod_quirc_init w E m hor_res ver_res).2
          pixels)).1 ∧
      (mod_quirc_scan E (fill_framebuffer E
        (mod_quirc_init w E (mod_quirc_init w E m hor_res ver_res).2 hor_res ver_res).2
          pixels)).2.mem =
        (mod_quirc_scan E (fill_framebuffer E (mod_quirc_init w E m hor_res ver_res).2
          pixels)).2.mem := by
  have key :
      (mod_quirc_init w E (mod_quirc_init w E m hor_res ver_res).2 hor_res ver_res).1 =
        (mod_quirc_init w E m hor_res ver_res).1 ∧
      (mod_quirc_init w E (mod_quirc_init w E m hor_res ver_res).2 hor_res ver_res).2.mem =
        (mod_quirc_init w E m hor_res ver_res).2.mem := by
    by_cases ht : mp_uint_t_of w hor_res > CONFIG_QUIRC_QR_MAX_HOR_RES ∨
        mp_uint_t_of w ver_res > CONFIG_QUIRC_QR_MAX_VER_RES
    · rw [mod_quirc_init_of_test w E m hor_res ver_res ht]
      simp only
      rw [mod_quirc_init_of_test w E m hor_res ver_res ht]
      exact ⟨rfl, rfl⟩
    · have again := call_quirc_init_again E m (mp_uint_t_of w hor_res)
        (mp_uint_t_of w ver_res) hE
      by_cases hneg : (call_quirc_init E m (mp_uint_t_of w hor_res)
          (mp_uint_t_of w ver_res)).1 < 0
      · rw [mod_quirc_init_of_not_test w E m hor_res ver_res ht, if_pos hneg]
        simp only
        rw [mod_quirc_init_of_not_test w E _ hor_res ver_res ht,
          if_pos (by rw [again.1]; exact hneg)]
        exact ⟨rfl, again.2⟩
      · rw [mod_quirc_init_of_not_test w E m hor_res ver_res ht, if_neg hneg]
        simp only
        rw [mod_quirc_init_of_not_test w E _ hor_res ver_res ht,
          if_neg (by rw [again.1]; exact hneg)]
        exact ⟨rfl, again.2⟩
  refine ⟨key.1, key.2, ?_⟩
  intro pixels
  apply mod_quirc_scan_mem
  simp only [fill_framebuffer, key.2]

/-- Witness of C7 on a 32-bit word with the concrete engine, which overwrites
its context: `init(64, 48)` twice, then a scan of the frame `72 73`. -/
theorem init_idempotent_witness :
    InitOverwrites toyEngine ∧
    (mod_quirc_init 32 toyEngine (mod_quirc_init 32 toyEngine (toyMachine [9]) 64 48).2 64 48).1 =
      (mod_quirc_init 32 toyEngine (toyMachine [9]) 64 48).1 ∧
    (mod_quirc_init 32 toyEngine (toyMachine [9]) 64 48).1 = Except.ok MpObj.none ∧
    (mod_quirc_scan toyEngine (fill_framebuffer toyEngine
      (mod_quirc_init 32 toyEngine (mod_quirc_init 32 toyEngine (toyMachine [9]) 64 48).2
        64 48).2 [72, 73])).1 =
      (mod_quirc_scan toyEngine (fill_framebuffer toyEngine
        (mod_quirc_init 32 toyEngine (toyMachine [9]) 64 48).2 [72, 73])).1 :=
  ⟨toyEngine_overwrites,
    (init_idempotent 32 toyEngine (toyMachine [9]) 64 48 toyEngine_overwrites).1, rfl,
    ((init_idempotent 32 toyEngine (toyMachine [9]) 64 48 toyEngine_overwrites).2.2
      [72, 73]).1⟩

/-! ## The workspace count and the signed arguments -/

/-- C9, as stated, fails.  With the concrete engine, where
`QUIRC_VARS_NUMOF(h) = h * 2 / 3`, `init(128, 64)` and `init(128, 128)` are both
valid and differ in `ver_res`, and both hand `quirc_init` the workspace count
`85`, which is `QUIRC_VARS_NUMOF(128)` and not `QUIRC_VARS_NUMOF(64) = 42`. -/
theorem workspace_count_ignores_ver_res :
    (mod_quirc_init 32 toyEngine (toyMachine []) 128 64).1 = Except.ok MpObj.none ∧
    (mod_quirc_init 32 toyEngine (toyMachine []) 128 128).1 = Except.ok MpObj.none ∧
    (mod_quirc_init 32 toyEngine (toyMachine []) 128 64).2.calls =
      [Call.quirc_init Ptr._quirc 128 64 Ptr._framebuffer Ptr._flood_fill_vars 85] ∧
    (mod_quirc_init 32 toyEngine (toyMachine []) 128 128).2.calls =
      [Call.quirc_init Ptr._quirc 128 128 Ptr._framebuffer Ptr._flood_fill_vars 85] ∧
    toyEngine.QUIRC_VARS_NUMOF 64 = 42 ∧ toyEngine.QUIRC_VARS_NUMOF 128 = 85 :=
  ⟨rfl, rfl, rfl, rfl, rfl, rfl⟩

/-- C9, amended: for every pair that passes the bounds test, the workspace count
handed to `quirc_init` is the compile-time constant
`QUIRC_VARS_NUMOF(CONFIG_QUIRC_QR_MAX_VER_RES)`, the number of elements of the
static array `_flood_fill_vars`; it is the same for every `ver_res`. -/
theorem init_workspace_count (w : Nat) (E : Engine) (m : Machine E) (hor_res ver_res : Int)
    (hin : mp_uint_t_of w hor_res ≤ CONFIG_QUIRC_QR_MAX_HOR_RES ∧
      mp_uint_t_of w ver_res ≤ CONFIG_QUIRC_QR_MAX_VER_RES) :
    (mod_quirc_init w E m hor_res ver_res).2.calls =
      m.calls ++ [Call.quirc_init Ptr._quirc (mp_uint_t_of w hor_res) (mp_uint_t_of w ver_res)
        Ptr._framebuffer Ptr._flood_fill_vars
        (E.QUIRC_VARS_NUMOF CONFIG_QUIRC_QR_MAX_VER_RES)] := by
  have ht : ¬ (mp_uint_t_of w hor_res > CONFIG_QUIRC_QR_MAX_HOR_RES ∨
      mp_uint_t_of w ver_res > CONFIG_QUIRC_QR_MAX_VER_RES) := by omega
  rw [mod_quirc_init_of_not_test w E m hor_res ver_res ht]
  unfold call_quirc_init CONFIG_QUIRC_FLOOD_FILL_VARS
  split <;> rfl

/-- Witness of the amended C9 on a 32-bit word with the concrete engine:
`init(128, 64)` passes `QUIRC_VARS_NUMOF(128)` as the workspace count. -/
theorem init_workspace_count_witness :
    (mp_uint_t_of 32 128 ≤ CONFIG_QUIRC_QR_MAX_HOR_RES ∧
      mp_uint_t_of 32 64 ≤ CONFIG_QUIRC_QR_MAX_VER_RES) ∧
    (mod_quirc_init 32 toyEngine (toyMachine []) 128 64).2.calls =
      (toyMachine []).calls ++ [Call.quirc_init Ptr._quirc (mp_uint_t_of 32 128)
        (mp_uint_t_of 32 64) Ptr._framebuffer Ptr._flood_fill_vars
        (toyEngine.QUIRC_VARS_NUMOF CONFIG_QUIRC_QR_MAX_VER_RES)] :=
  ⟨by decide, init_workspace_count 32 toyEngine (toyMachine []) 128 64 (by decide)⟩

/-- C10: on a machine word of at least nine bits, each argument is compared as
its value modulo `2 ^ w`; a negative argument becomes a value above `128`, so
`init` with a negative `hor_res` or `ver_res` raises the `ValueError` and hands
back the machine untouched, `quirc_init` not having been called.  The pairs that
reach `quirc_init` are exactly those with `0 ≤ hor_res ≤ 128` and
`0 ≤ ver_res ≤ 128`, and `quirc_init` is called with those very values. -/
theorem init_signed_arguments (w : Nat) (E : Engine) (m : Machine E) (hor_res ver_res : Int)
    (hw : 9 ≤ w) (hh : isMpInt w hor_res) (hv : isMpInt w ver_res) :
    ((mp_uint_t_of w hor_res : Int) = hor_res % (2 : Int) ^ w ∧
      (mp_uint_t_of w ver_res : Int) = ver_res % (2 : Int) ^ w) ∧
    (hor_res < 0 → 128 < mp_uint_t_of w hor_res) ∧
    (ver_res < 0 → 128 < mp_uint_t_of w ver_res) ∧
    (hor_res < 0 ∨ ver_res < 0 →
      mod_quirc_init w E m hor_res ver_res =
        (Except.error (MpExc.ValueError "Maximum resolution for the QR scanner is %ux%u"
          [128, 128]), m)) ∧
    (0 ≤ hor_res ∧ hor_res ≤ 128 ∧ 0 ≤ ver_res ∧ ver_res ≤ 128 →
      (mod_quirc_init w E m hor_res ver_res).2.calls =
        m.calls ++ [Call.quirc_init Ptr._quirc hor_res.toNat ver_res.toNat Ptr._framebuffer
          Ptr._flood_fill_vars (CONFIG_QUIRC_FLOOD_FILL_VARS E)]) ∧
    (¬ (0 ≤ hor_res ∧ hor_res ≤ 128 ∧ 0 ≤ ver_res ∧ ver_res ≤ 128) →
      (mod_quirc_init w E m hor_res ver_res).2.calls = m.calls) := by
  have hpos : (0 : Int) < (2 : Int) ^ w := by positivity
  refine ⟨⟨?_, ?_⟩, ?_, ?_, ?_, ?_, ?_⟩
  · exact Int.toNat_of_nonneg (Int.emod_nonneg _ (ne_of_gt hpos))
  · exact Int.toNat_of_nonneg (Int.emod_nonneg _ (ne_of_gt hpos))
  · intro h
    exact mp_uint_t_of_neg w hor_res hw h hh
  · intro h
    exact mp_uint_t_of_neg w ver_res hw h hv
  · intro h
    apply mod_quirc_init_of_test
    unfold CONFIG_QUIRC_QR_MAX_HOR_RES CONFIG_QUIRC_QR_MAX_VER_RES
    rcases h with h | h
    · exact Or.inl (mp_uint_t_of_neg w hor_res hw h hh)
    · exact Or.inr (mp_uint_t_of_neg w ver_res hw h hv)
  · intro hin
    have ht := (bounds_test_iff w hor_res ver_res hw hh hv).mpr hin
    rw [mod_quirc_init_of_not_test w E m hor_res ver_res ht,
      mp_uint_t_of_nonneg w hor_res hin.1 hh, mp_uint_t_of_nonneg w ver_res hin.2.2.1 hv]
    unfold call_quirc_init
    split <;> rfl
  · intro hout
    have ht : mp_uint_t_of w hor_res > CONFIG_QUIRC_QR_MAX_HOR_RES ∨
        mp_uint_t_of w ver_res > CONFIG_QUIRC_QR_MAX_VER_RES := by
      by_contra hc
      exact hout ((bounds_test_iff w hor_res ver_res hw hh hv).mp hc)
    rw [mod_quirc_init_of_test w E m hor_res ver_res ht]

/-- Witness of C10 on a 32-bit word with the concrete engine: `init(-1, 5)`;
`-1` becomes `4294967295` and the call is refused before the engine is
reached. -/
theorem init_signed_arguments_witness :
    9 ≤ 32 ∧ isMpInt 32 (-1) ∧ isMpInt 32 5 ∧ mp_uint_t_of 32 (-1) = 4294967295 ∧
    mod_quirc_init 32 toyEngine (toyMachine []) (-1) 5 =
      (Except.error (MpExc.ValueError "Maximum resolution for the QR scanner is %ux%u"
        [128, 128]), toyMachine []) :=
  ⟨by decide, by decide, by decide, by decide,
    (init_signed_arguments 32 toyEngine (toyMachine []) (-1) 5 (by decide) (by decide)
      (by decide)).2.2.2.1 (Or.inl (by decide))⟩

end Quirc
